import Mathlib

/-!
Shallow embedding of the proof-submission widget: validation schema,
file-upload zone pre-checks, the media-viewer transform state machine,
and the submission pipeline with its two external collaborators.
-/

namespace ProofViewer

/-! ### Data model -/

/-- A candidate file: name, MIME type string and size in bytes
(the `File` fields the code reads: `name`, `type`, `size`). -/
structure FileData where
  name : String
  mimeType : String
  sizeBytes : Nat
deriving DecidableEq, Repr

/-- Character-list prefix test, the semantics of JavaScript
`String.prototype.startsWith` on the decoded character sequence. -/
def charsLeadWith : List Char → List Char → Bool
  | [], _ => true
  | _ :: _, [] => false
  | c :: cs, d :: ds => c = d && charsLeadWith cs ds

/-- `s.startsWith(p)` on strings. -/
def strLeadsWith (s p : String) : Bool := charsLeadWith p.data s.data

/-- The code's image test: `file.type.startsWith("image/")`. -/
def FileData.isImage (f : FileData) : Bool := strLeadsWith f.mimeType ("image/")

/-- The code's video test: `file.type.startsWith("video/")`. -/
def FileData.isVideo (f : FileData) : Bool := strLeadsWith f.mimeType ("video/")

/-- `1 * 1024 * 1024` — the image size limit from the validation schema. -/
def imageMaxSize : Nat := 1 * 1024 * 1024

/-- `5 * 1024 * 1024` — the video size limit from the validation schema. -/
def videoMaxSize : Nat := 5 * 1024 * 1024

/-- `const maxSize = isImage ? 1 * 1024 * 1024 : 5 * 1024 * 1024`. -/
def FileData.maxSize (f : FileData) : Nat :=
  if f.isImage then imageMaxSize else videoMaxSize

/-- The form's input: an optional proof link and an optional file
(the two fields of `addProofSchema`). -/
structure ProofInput where
  proofLink : Option String
  file : Option FileData
deriving DecidableEq, Repr

/-- JavaScript truthiness of an optional string: `undefined` and the empty
string are falsy, every other string is truthy. -/
def strTruthy : Option String → Bool
  | none => false
  | some s => s ≠ ""

/-! ### Validation rules (`addProofSchema`) -/

/-- The four validation failure kinds of the schema. -/
inductive ValidationError where
  | MissingInput
  | InvalidUrl
  | UnsupportedFileType
  | FileTooLarge
deriving DecidableEq, Repr

/-- Field-level refinement on `proofLink`:
`(val) => !val || z.string().url().safeParse(val).success`, parameterised by
the URL wellformedness test `urlValid`. -/
def linkUrlErrors (urlValid : String → Bool) (input : ProofInput) : List ValidationError :=
  match input.proofLink with
  | none => []
  | some v => if v = "" ∨ urlValid v then [] else [.InvalidUrl]

/-- First object-level refinement: `(data) => data.proofLink || data.file`
(a present `File` object is always truthy; an empty-string link is falsy). -/
def missingErrors (input : ProofInput) : List ValidationError :=
  if strTruthy input.proofLink ∨ input.file.isSome then [] else [.MissingInput]

/-- Second object-level refinement with its message function: if a file is
present, first the mime-class check (failure reported as
`UnsupportedFileType`), then the class-specific size check (failure reported
as `FileTooLarge`). -/
def fileErrors (input : ProofInput) : List ValidationError :=
  match input.file with
  | none => []
  | some f =>
    if f.isImage ∨ f.isVideo then
      if f.sizeBytes > f.maxSize then [.FileTooLarge] else []
    else [.UnsupportedFileType]

/-- `addProofSchema` as an issue collector: zod runs the field-level URL
refinement and, the refinements being non-fatal, both chained object-level
refinements, accumulating every issue raised. -/
def validate (urlValid : String → Bool) (input : ProofInput) : List ValidationError :=
  linkUrlErrors urlValid input ++ missingErrors input ++ fileErrors input

/-! ### Validation lemmas -/

lemma mem_linkUrlErrors (urlValid : String → Bool) (input : ProofInput)
    (e : ValidationError) (he : e ∈ linkUrlErrors urlValid input) :
    e = .InvalidUrl := by
  unfold linkUrlErrors at he
  rcases input with ⟨link, file⟩
  rcases link with _ | v
  · simp at he
  · simp only at he
    split at he <;> simp_all

lemma mem_missingErrors (input : ProofInput)
    (e : ValidationError) (he : e ∈ missingErrors input) :
    e = .MissingInput := by
  unfold missingErrors at he
  split at he <;> simp_all

lemma mem_fileErrors (input : ProofInput)
    (e : ValidationError) (he : e ∈ fileErrors input) :
    e = .UnsupportedFileType ∨ e = .FileTooLarge := by
  unfold fileErrors at he
  rcases input with ⟨link, file⟩
  rcases file with _ | f
  · simp at he
  · simp only at he
    split at he
    · split at he <;> simp_all
    · simp_all

/-- **C2.** For an image file, validation yields `FileTooLarge` iff its size
exceeds 1,048,576 bytes; for a video file, iff its size exceeds 5,242,880
bytes; in particular a file exactly at its class limit never triggers
`FileTooLarge`. -/
theorem validate_fileTooLarge_iff (urlValid : String → Bool) (link : Option String)
    (f : FileData) :
    (f.isImage = true →
      (ValidationError.FileTooLarge ∈ validate urlValid ⟨link, some f⟩ ↔
        f.sizeBytes > 1048576)) ∧
    (f.isVideo = true →
      (ValidationError.FileTooLarge ∈ validate urlValid ⟨link, some f⟩ ↔
        f.sizeBytes > 5242880)) := by
  have himg : f.isImage = true → ¬ f.isVideo = true := by
    intro h hv
    unfold FileData.isImage strLeadsWith at h
    unfold FileData.isVideo strLeadsWith at hv
    rw [show ("image/").data = ['i', 'm', 'a', 'g', 'e', '/'] from rfl] at h
    rw [show ("video/").data = ['v', 'i', 'd', 'e', 'o', '/'] from rfl] at hv
    generalize f.mimeType.data = l at h hv
    rcases l with _ | ⟨c, cs⟩
    · exact absurd h (by simp [charsLeadWith])
    · simp only [charsLeadWith, Bool.and_eq_true, decide_eq_true_eq] at h hv
      have : ('i' : Char) = 'v' := h.1.trans hv.1.symm
      exact absurd this (by decide)
  constructor
  · intro hI
    have hV : f.isVideo = false := by
      rcases h : f.isVideo with _ | _
      · rfl
      · exact absurd h (himg hI)
    constructor
    · intro hmem
      unfold validate at hmem
      rcases List.mem_append.mp hmem with h1 | h1
      · rcases List.mem_append.mp h1 with h2 | h2
        · exact absurd (mem_linkUrlErrors urlValid _ _ h2) (by simp)
        · exact absurd (mem_missingErrors _ _ h2) (by simp)
      · unfold fileErrors at h1
        simp only [hI, hV, FileData.maxSize, imageMaxSize] at h1
        split at h1 <;> simp_all [FileData.maxSize, imageMaxSize, hI]
    · intro hsz
      unfold validate
      refine List.mem_append.mpr (Or.inr ?_)
      unfold fileErrors
      simp [hI, FileData.maxSize, imageMaxSize]
      omega
  · intro hV
    have hI : f.isImage = false := by
      rcases h : f.isImage with _ | _
      · rfl
      · exact absurd hV (himg h)
    constructor
    · intro hmem
      unfold validate at hmem
      rcases List.mem_append.mp hmem with h1 | h1
      · rcases List.mem_append.mp h1 with h2 | h2
        · exact absurd (mem_linkUrlErrors urlValid _ _ h2) (by simp)
        · exact absurd (mem_missingErrors _ _ h2) (by simp)
      · unfold fileErrors at h1
        simp only [hI, hV, FileData.maxSize, videoMaxSize] at h1
        split at h1 <;> simp_all [FileData.maxSize, videoMaxSize, hI]
    · intro hsz
      unfold validate
      refine List.mem_append.mpr (Or.inr ?_)
      unfold fileErrors
      simp [hI, hV, FileData.maxSize, videoMaxSize]
      omega

/-- Witness for C2: a 1 MiB + 1 image file is too large, a 1 MiB image file is
not, and a 5 MiB video file is not. -/
theorem validate_fileTooLarge_iff_witness :
    (ValidationError.FileTooLarge ∈
      validate (fun _ => true) ⟨none, some ⟨"a.png", "image/png", 1048577⟩⟩) ∧
    (ValidationError.FileTooLarge ∉
      validate (fun _ => true) ⟨none, some ⟨"a.png", "image/png", 1048576⟩⟩) ∧
    (ValidationError.FileTooLarge ∉
      validate (fun _ => true) ⟨none, some ⟨"a.mp4", "video/mp4", 5242880⟩⟩) := by
  refine ⟨?_, ?_, ?_⟩
  · exact ((validate_fileTooLarge_iff (fun _ => true) none
      ⟨"a.png", "image/png", 1048577⟩).1 (by decide)).mpr (by decide)
  · intro hmem
    exact absurd (((validate_fileTooLarge_iff (fun _ => true) none
      ⟨"a.png", "image/png", 1048576⟩).1 (by decide)).mp hmem) (by decide)
  · intro hmem
    exact absurd (((validate_fileTooLarge_iff (fun _ => true) none
      ⟨"a.mp4", "video/mp4", 5242880⟩).2 (by decide)).mp hmem) (by decide)

/-- **C3.** Validation yields `MissingInput` exactly when neither field is
provided (link absent or empty, file absent); in particular an input with
both fields set is never rejected with `MissingInput`. -/
theorem validate_missingInput_iff (urlValid : String → Bool) (input : ProofInput) :
    ValidationError.MissingInput ∈ validate urlValid input ↔
      (strTruthy input.proofLink = false ∧ input.file = none) := by
  constructor
  · intro hmem
    unfold validate at hmem
    rcases List.mem_append.mp hmem with h1 | h1
    · rcases List.mem_append.mp h1 with h2 | h2
      · exact absurd (mem_linkUrlErrors urlValid _ _ h2) (by simp)
      · unfold missingErrors at h2
        split at h2
        · simp at h2
        · rename_i hcond
          push_neg at hcond
          constructor
          · simpa using hcond.1
          · have h2 := hcond.2
            rcases hf : input.file with _ | f
            · rfl
            · rw [hf] at h2
              simp at h2
    · rcases mem_fileErrors input _ h1 with h | h <;> simp at h
  · intro ⟨hlink, hfile⟩
    unfold validate
    refine List.mem_append.mpr (Or.inl (List.mem_append.mpr (Or.inr ?_)))
    unfold missingErrors
    rw [hlink, hfile]
    simp

/-- Witness for C3 (the hypothesis here is one direction of the iff): the
empty input is rejected with `MissingInput`, and an input carrying both a
link and a file is not. -/
theorem validate_missingInput_iff_witness :
    (ValidationError.MissingInput ∈ validate (fun _ => true) ⟨none, none⟩) ∧
    (ValidationError.MissingInput ∉ validate (fun _ => true)
      ⟨some ("https://example.com"), some ⟨"a.png", "image/png", 10⟩⟩) := by
  constructor
  · exact (validate_missingInput_iff (fun _ => true) ⟨none, none⟩).mpr (by decide)
  · intro hmem
    have := (validate_missingInput_iff (fun _ => true)
      ⟨some ("https://example.com"), some ⟨"a.png", "image/png", 10⟩⟩).mp hmem
    simp [strTruthy] at this

/-- **C4.** A file whose MIME type starts with neither `image/` nor `video/`
always yields `UnsupportedFileType`, regardless of its size. -/
theorem validate_unsupportedFileType (urlValid : String → Bool) (link : Option String)
    (f : FileData) (hI : f.isImage = false) (hV : f.isVideo = false) :
    ValidationError.UnsupportedFileType ∈ validate urlValid ⟨link, some f⟩ := by
  unfold validate
  refine List.mem_append.mpr (Or.inr ?_)
  unfold fileErrors
  simp [hI, hV]

/-- Witness for C4: a PDF file of arbitrary small size is rejected as
unsupported. -/
theorem validate_unsupportedFileType_witness :
    ValidationError.UnsupportedFileType ∈
      validate (fun _ => true) ⟨none, some ⟨"a.pdf", "application/pdf", 5⟩⟩ :=
  validate_unsupportedFileType (fun _ => true) none
    ⟨"a.pdf", "application/pdf", 5⟩ (by decide) (by decide)

/-! ### File Upload Zone (`file-upload-zone.tsx`) -/

/-- Observable effect of a file-acquisition handler: the message passed to
`alert`, if any, and the value passed to the `onFileChange` callback, if the
callback is invoked (`some v` = callback invoked with `v`). -/
structure ZoneEffect where
  alertMsg : Option String
  fileChange : Option (Option FileData)
deriving DecidableEq, Repr

/-- `handleFileDrop`: with a non-empty payload, takes the first file, alerts
and returns on a non-image/video type, alerts and returns on an oversized
file, and otherwise invokes `onFileChange` with the file. An empty payload
does nothing. -/
def handleFileDrop : List FileData → ZoneEffect
  | [] => ⟨none, none⟩
  | f :: _ =>
    if !(f.isImage || f.isVideo) then
      ⟨some ("Please upload only image or video files"), none⟩
    else if f.sizeBytes > f.maxSize then
      ⟨some ("File size must be less than " ++ (if f.isImage then "1MB" else "5MB")), none⟩
    else
      ⟨none, some (some f)⟩

/-- `handleInputChange`: always invokes `onFileChange` with
`event.target.files?.[0]`, with no check of any kind. -/
def handleInputChange (files : List FileData) : ZoneEffect :=
  ⟨none, some files.head?⟩

/-- The selected file after an effect: `onFileChange` replaces the selection
when invoked; otherwise the current selection is kept. -/
def applySelection (eff : ZoneEffect) (current : Option FileData) : Option FileData :=
  match eff.fileChange with
  | some v => v
  | none => current

/-- The type/size pre-check of the validation schema, as a predicate: mime
class image or video, and size within the class limit. -/
def precheckPasses (f : FileData) : Bool :=
  (f.isImage || f.isVideo) && f.sizeBytes ≤ f.maxSize

/-- **C5 counterexample.** The native file-picker path applies no pre-check:
`handleInputChange` invokes the accept callback with a 2 MiB image even
though that file fails the type/size pre-check (the drop path would reject
it); moreover a zero-file drop payload produces no user-facing message. -/
theorem uploadZone_picker_unchecked_cex :
    (handleInputChange [⟨"big.png", "image/png", 2097152⟩]).fileChange
        = some (some ⟨"big.png", "image/png", 2097152⟩) ∧
    precheckPasses ⟨"big.png", "image/png", 2097152⟩ = false ∧
    (handleFileDrop [⟨"big.png", "image/png", 2097152⟩]).fileChange = none ∧
    (handleFileDrop []).alertMsg = none := by
  decide

/-- **C5 (amended).** The drag-and-drop path pre-checks the first file of the
payload: the accept callback is invoked exactly on files passing the
type/size check; a payload whose first file fails the check raises an alert
and leaves the current selection unchanged; a zero-file payload is ignored
silently; the native file-picker path invokes the callback with the first
selected file (or with nothing, clearing the selection) without any
pre-check. -/
theorem uploadZone_precheck (files : List FileData) (f : FileData)
    (current : Option FileData) :
    ((handleFileDrop files).fileChange = some (some f) →
      files.head? = some f ∧ precheckPasses f = true) ∧
    (files.head? = some f → precheckPasses f = false →
      (∃ msg, (handleFileDrop files).alertMsg = some msg) ∧
      applySelection (handleFileDrop files) current = current) ∧
    (handleFileDrop [] = ⟨none, none⟩) ∧
    ((handleInputChange files).alertMsg = none ∧
      (handleInputChange files).fileChange = some files.head?) := by
  rcases files with _ | ⟨g, gs⟩
  · refine ⟨?_, ?_, rfl, rfl, rfl⟩
    · intro h
      simp [handleFileDrop] at h
    · intro hhead
      simp at hhead
  · refine ⟨?_, ?_, rfl, rfl, rfl⟩
    · intro h
      simp only [handleFileDrop] at h
      by_cases hty : (!(g.isImage || g.isVideo)) = true
      · rw [if_pos hty] at h
        simp at h
      · rw [if_neg hty] at h
        by_cases hsz : g.sizeBytes > g.maxSize
        · rw [if_pos hsz] at h
          simp at h
        · rw [if_neg hsz] at h
          have hgf : g = f := by simpa using h
          subst hgf
          refine ⟨rfl, ?_⟩
          have hty2 : (g.isImage || g.isVideo) = true := by
            rcases hb : (g.isImage || g.isVideo) with _ | _
            · exact absurd (by simp [hb]) hty
            · rfl
          have hle : g.sizeBytes ≤ g.maxSize := Nat.not_lt.mp hsz
          simp only [precheckPasses, Bool.and_eq_true, decide_eq_true_eq]
          exact ⟨hty2, hle⟩
    · intro hhead hfail
      have hgf : g = f := by simpa using hhead
      subst hgf
      simp only [handleFileDrop]
      by_cases hty : (!(g.isImage || g.isVideo)) = true
      · rw [if_pos hty]
        exact ⟨⟨_, rfl⟩, rfl⟩
      · rw [if_neg hty]
        by_cases hsz : g.sizeBytes > g.maxSize
        · rw [if_pos hsz]
          exact ⟨⟨_, rfl⟩, rfl⟩
        · exfalso
          have hty2 : (g.isImage || g.isVideo) = true := by
            rcases hb : (g.isImage || g.isVideo) with _ | _
            · exact absurd (by simp [hb]) hty
            · rfl
          have hle : g.sizeBytes ≤ g.maxSize := Nat.not_lt.mp hsz
          simp [precheckPasses, hty2, hle] at hfail

/-- Witness for C5 (amended): at the concrete 2 MiB image, the drop path
raises an alert and keeps the (empty) selection. -/
theorem uploadZone_precheck_witness :
    (∃ msg, (handleFileDrop [⟨"big.png", "image/png", 2097152⟩]).alertMsg = some msg) ∧
    applySelection (handleFileDrop [⟨"big.png", "image/png", 2097152⟩]) none = none :=
  (uploadZone_precheck [⟨"big.png", "image/png", 2097152⟩]
    ⟨"big.png", "image/png", 2097152⟩ none).2.1 (by decide) (by decide)

/-! ### Media Viewer transform state machine (`media-viewer.tsx`) -/

/-- The viewer's transform-related state: whether the content is an image
(`fileType.startsWith("image/")`, fixed per viewer instance), the scale,
rotation, pan offset and drag bookkeeping. Coordinates are rationals,
modelling the exact arithmetic the handlers perform on quarter-step scales
and pixel offsets. -/
structure ViewerState where
  isImage : Bool
  imageScale : ℚ
  imageRotation : ℤ
  panX : ℚ
  panY : ℚ
  isDragging : Bool
  dragStartX : ℚ
  dragStartY : ℚ
deriving DecidableEq, Repr

/-- Initial viewer state: `scale 1`, `rotation 0`, `pan (0,0)`, not
dragging. -/
def initViewerState (isImage : Bool) : ViewerState :=
  ⟨isImage, 1, 0, 0, 0, false, 0, 0⟩

/-- `handleZoomIn`: `setImageScale(prev => Math.min(prev + 0.25, 3))`. -/
def handleZoomIn (s : ViewerState) : ViewerState :=
  { s with imageScale := min (s.imageScale + 1/4) 3 }

/-- `handleZoomOut`: `newScale = Math.max(prev - 0.25, 0.25)`; if the new
scale is `≤ 1` the pan is reset to the origin. -/
def handleZoomOut (s : ViewerState) : ViewerState :=
  let newScale := max (s.imageScale - 1/4) (1/4)
  if newScale ≤ 1 then
    { s with imageScale := newScale, panX := 0, panY := 0 }
  else
    { s with imageScale := newScale }

/-- `handleRotate`: `setImageRotation(prev => (prev + 90) % 360)`. -/
def handleRotate (s : ViewerState) : ViewerState :=
  { s with imageRotation := (s.imageRotation + 90) % 360 }

/-- `handleReset`: scale 1, rotation 0, pan origin. -/
def handleReset (s : ViewerState) : ViewerState :=
  { s with imageScale := 1, imageRotation := 0, panX := 0, panY := 0 }

/-- `handleMouseDown`: starts a drag, anchored at pointer minus current pan,
only for image content zoomed beyond 1. -/
def handleMouseDown (cx cy : ℚ) (s : ViewerState) : ViewerState :=
  if s.isImage = true ∧ 1 < s.imageScale then
    { s with isDragging := true, dragStartX := cx - s.panX, dragStartY := cy - s.panY }
  else s

/-- The clamp applied to each pan axis:
`Math.max(-maxOffset, Math.min(maxOffset, v))` with `maxOffset = 200`. -/
def clampOffset (v : ℚ) : ℚ := max (-200) (min 200 v)

/-- `handleMouseMove`: while dragging with scale above 1, the pan becomes the
pointer position minus the drag anchor, each axis clamped to `[-200, 200]`. -/
def handleMouseMove (cx cy : ℚ) (s : ViewerState) : ViewerState :=
  if s.isDragging = true ∧ 1 < s.imageScale then
    { s with panX := clampOffset (cx - s.dragStartX),
             panY := clampOffset (cy - s.dragStartY) }
  else s

/-- `handleMouseUp`: stops dragging. -/
def handleMouseUp (s : ViewerState) : ViewerState := { s with isDragging := false }

/-- `handleMouseLeave`: stops dragging. -/
def handleMouseLeave (s : ViewerState) : ViewerState := { s with isDragging := false }

/-- `handleTouchStart`: as `handleMouseDown`, but only for a single-finger
touch payload. -/
def handleTouchStart (touches : List (ℚ × ℚ)) (s : ViewerState) : ViewerState :=
  match touches with
  | [t] =>
    if s.isImage = true ∧ 1 < s.imageScale then
      { s with isDragging := true, dragStartX := t.1 - s.panX, dragStartY := t.2 - s.panY }
    else s
  | _ => s

/-- `handleTouchMove`: as `handleMouseMove`, with the same clamp, for a
single-finger touch payload. -/
def handleTouchMove (touches : List (ℚ × ℚ)) (s : ViewerState) : ViewerState :=
  match touches with
  | [t] =>
    if s.isDragging = true ∧ 1 < s.imageScale then
      { s with panX := clampOffset (t.1 - s.dragStartX),
               panY := clampOffset (t.2 - s.dragStartY) }
    else s
  | _ => s

/-- `handleTouchEnd`: stops dragging. -/
def handleTouchEnd (s : ViewerState) : ViewerState := { s with isDragging := false }

/-- `resetImageControls` (run on close): scale 1, rotation 0, pan origin,
dragging cleared. -/
def resetImageControls (s : ViewerState) : ViewerState :=
  { s with imageScale := 1, imageRotation := 0, panX := 0, panY := 0, isDragging := false }

/-- Every user-driven event of the viewer. -/
inductive ViewerEvent where
  | zoomIn
  | zoomOut
  | rotate
  | reset
  | mouseDown (cx cy : ℚ)
  | mouseMove (cx cy : ℚ)
  | mouseUp
  | mouseLeave
  | touchStart (touches : List (ℚ × ℚ))
  | touchMove (touches : List (ℚ × ℚ))
  | touchEnd
  | close

/-- Dispatch of the viewer's handlers. -/
def viewerStep : ViewerEvent → ViewerState → ViewerState
  | .zoomIn => handleZoomIn
  | .zoomOut => handleZoomOut
  | .rotate => handleRotate
  | .reset => handleReset
  | .mouseDown cx cy => handleMouseDown cx cy
  | .mouseMove cx cy => handleMouseMove cx cy
  | .mouseUp => handleMouseUp
  | .mouseLeave => handleMouseLeave
  | .touchStart ts => handleTouchStart ts
  | .touchMove ts => handleTouchMove ts
  | .touchEnd => handleTouchEnd
  | .close => resetImageControls

/-- Running a sequence of viewer events from a state. -/
def runViewer (evs : List ViewerEvent) (s : ViewerState) : ViewerState :=
  evs.foldl (fun t e => viewerStep e t) s

/-! ### Viewer invariants -/

/-- Pan bounded by the 200-pixel clamp on both axes. -/
def panInBounds (s : ViewerState) : Prop :=
  -200 ≤ s.panX ∧ s.panX ≤ 200 ∧ -200 ≤ s.panY ∧ s.panY ≤ 200

/-- Scale within the zoom bounds. -/
def scaleInBounds (s : ViewerState) : Prop :=
  1/4 ≤ s.imageScale ∧ s.imageScale ≤ 3

/-- Rotation one of the four quarter turns. -/
def rotationQuarter (s : ViewerState) : Prop :=
  s.imageRotation = 0 ∨ s.imageRotation = 90 ∨ s.imageRotation = 180 ∨ s.imageRotation = 270

lemma clampOffset_bounds (v : ℚ) : -200 ≤ clampOffset v ∧ clampOffset v ≤ 200 := by
  unfold clampOffset
  constructor
  · exact le_max_left _ _
  · exact max_le (by norm_num) (min_le_left _ _)

lemma panInBounds_step (e : ViewerEvent) (s : ViewerState)
    (h : panInBounds s) : panInBounds (viewerStep e s) := by
  have hzero : (-200 : Rat) <= 0 ∧ (0 : Rat) <= 200 := by norm_num
  cases e with
  | zoomIn => exact h
  | zoomOut =>
    simp only [viewerStep, handleZoomOut]
    split
    · exact ⟨hzero.1, hzero.2, hzero.1, hzero.2⟩
    · exact h
  | rotate => exact h
  | reset => exact ⟨hzero.1, hzero.2, hzero.1, hzero.2⟩
  | mouseDown cx cy =>
    simp only [viewerStep, handleMouseDown]
    split
    · exact h
    · exact h
  | mouseMove cx cy =>
    simp only [viewerStep, handleMouseMove]
    split
    · exact ⟨(clampOffset_bounds _).1, (clampOffset_bounds _).2,
        (clampOffset_bounds _).1, (clampOffset_bounds _).2⟩
    · exact h
  | mouseUp => exact h
  | mouseLeave => exact h
  | touchStart ts =>
    rcases ts with _ | ⟨t, _ | ⟨u, us⟩⟩
    · exact h
    · simp only [viewerStep, handleTouchStart]
      split
      · exact h
      · exact h
    · exact h
  | touchMove ts =>
    rcases ts with _ | ⟨t, _ | ⟨u, us⟩⟩
    · exact h
    · simp only [viewerStep, handleTouchMove]
      split
      · exact ⟨(clampOffset_bounds _).1, (clampOffset_bounds _).2,
          (clampOffset_bounds _).1, (clampOffset_bounds _).2⟩
      · exact h
    · exact h
  | touchEnd => exact h
  | close => exact ⟨hzero.1, hzero.2, hzero.1, hzero.2⟩

lemma scaleInBounds_step (e : ViewerEvent) (s : ViewerState)
    (h : scaleInBounds s) : scaleInBounds (viewerStep e s) := by
  obtain ⟨hlo, hhi⟩ := h
  cases e with
  | zoomIn =>
    refine ⟨le_min (by linarith) (by norm_num), min_le_right _ _⟩
  | zoomOut =>
    simp only [viewerStep, handleZoomOut]
    have hlo2 : (1 : Rat)/4 <= max (s.imageScale - 1/4) (1/4) := le_max_right _ _
    have hhi2 : max (s.imageScale - 1/4) (1/4) <= 3 := max_le (by linarith) (by norm_num)
    split
    · exact ⟨hlo2, hhi2⟩
    · exact ⟨hlo2, hhi2⟩
  | rotate => exact ⟨hlo, hhi⟩
  | reset =>
    exact ⟨show (1:Rat)/4 <= (1:Rat) by norm_num, show (1:Rat) <= (3:Rat) by norm_num⟩
  | mouseDown cx cy =>
    simp only [viewerStep, handleMouseDown]
    split
    · exact ⟨hlo, hhi⟩
    · exact ⟨hlo, hhi⟩
  | mouseMove cx cy =>
    simp only [viewerStep, handleMouseMove]
    split
    · exact ⟨hlo, hhi⟩
    · exact ⟨hlo, hhi⟩
  | mouseUp => exact ⟨hlo, hhi⟩
  | mouseLeave => exact ⟨hlo, hhi⟩
  | touchStart ts =>
    rcases ts with _ | ⟨t, _ | ⟨u, us⟩⟩
    · exact ⟨hlo, hhi⟩
    · simp only [viewerStep, handleTouchStart]
      split
      · exact ⟨hlo, hhi⟩
      · exact ⟨hlo, hhi⟩
    · exact ⟨hlo, hhi⟩
  | touchMove ts =>
    rcases ts with _ | ⟨t, _ | ⟨u, us⟩⟩
    · exact ⟨hlo, hhi⟩
    · simp only [viewerStep, handleTouchMove]
      split
      · exact ⟨hlo, hhi⟩
      · exact ⟨hlo, hhi⟩
    · exact ⟨hlo, hhi⟩
  | touchEnd => exact ⟨hlo, hhi⟩
  | close =>
    exact ⟨show (1:Rat)/4 <= (1:Rat) by norm_num, show (1:Rat) <= (3:Rat) by norm_num⟩

lemma rotationQuarter_step (e : ViewerEvent) (s : ViewerState)
    (h : rotationQuarter s) : rotationQuarter (viewerStep e s) := by
  cases e with
  | rotate =>
    unfold rotationQuarter at h
    show (s.imageRotation + 90) % 360 = 0 ∨ (s.imageRotation + 90) % 360 = 90 ∨
      (s.imageRotation + 90) % 360 = 180 ∨ (s.imageRotation + 90) % 360 = 270
    rcases h with h | h | h | h <;> rw [h] <;> decide
  | zoomIn => exact h
  | zoomOut =>
    simp only [viewerStep, handleZoomOut]
    split
    · exact h
    · exact h
  | reset => exact Or.inl rfl
  | mouseDown cx cy =>
    simp only [viewerStep, handleMouseDown]
    split
    · exact h
    · exact h
  | mouseMove cx cy =>
    simp only [viewerStep, handleMouseMove]
    split
    · exact h
    · exact h
  | mouseUp => exact h
  | mouseLeave => exact h
  | touchStart ts =>
    rcases ts with _ | ⟨t, _ | ⟨u, us⟩⟩
    · exact h
    · simp only [viewerStep, handleTouchStart]
      split
      · exact h
      · exact h
    · exact h
  | touchMove ts =>
    rcases ts with _ | ⟨t, _ | ⟨u, us⟩⟩
    · exact h
    · simp only [viewerStep, handleTouchMove]
      split
      · exact h
      · exact h
    · exact h
  | touchEnd => exact h
  | close => exact Or.inl rfl

lemma runViewer_inv (P : ViewerState → Prop)
    (hstep : ∀ e s, P s → P (viewerStep e s))
    (evs : List ViewerEvent) (s : ViewerState) (h : P s) :
    P (runViewer evs s) := by
  induction evs generalizing s with
  | nil => exact h
  | cons e evs ih => exact ih _ (hstep e s h)

lemma initViewerState_pan (b : Bool) : panInBounds (initViewerState b) :=
  ⟨show (-200 : Rat) ≤ 0 by norm_num, show (0 : Rat) ≤ 200 by norm_num,
   show (-200 : Rat) ≤ 0 by norm_num, show (0 : Rat) ≤ 200 by norm_num⟩

lemma initViewerState_scale (b : Bool) : scaleInBounds (initViewerState b) :=
  ⟨show (1 : Rat)/4 ≤ 1 by norm_num, show (1 : Rat) ≤ 3 by norm_num⟩

lemma rotate_rotation (s : ViewerState) :
    (viewerStep .rotate s).imageRotation = (s.imageRotation + 90) % 360 := rfl

lemma rotate_four (s : ViewerState) (h : rotationQuarter s) :
    (viewerStep .rotate (viewerStep .rotate (viewerStep .rotate
      (viewerStep .rotate s)))).imageRotation = s.imageRotation := by
  rcases h with h | h | h | h <;> · simp only [rotate_rotation, h]; decide

/-- **C6.** From the initial state, after any sequence of viewer events
(zoom, rotate, reset, mouse and touch pointer events, close), both pan
components lie in the interval `[-200, 200]`. -/
theorem viewer_pan_clamped (evs : List ViewerEvent) (b : Bool) :
    panInBounds (runViewer evs (initViewerState b)) :=
  runViewer_inv panInBounds panInBounds_step evs _ (initViewerState_pan b)

/-- **C7.** Every reachable scale lies in `[0.25, 3]`; `zoomIn` computes
`min(scale + 0.25, 3)` and `zoomOut` computes `max(scale - 0.25, 0.25)`, so
`zoomIn` at scale 3 keeps scale 3 and `zoomOut` at scale 0.25 keeps
scale 0.25. -/
theorem viewer_scale_bounds (evs : List ViewerEvent) (b : Bool) (s : ViewerState) :
    (1/4 ≤ (runViewer evs (initViewerState b)).imageScale ∧
      (runViewer evs (initViewerState b)).imageScale ≤ 3) ∧
    ((handleZoomIn s).imageScale = min (s.imageScale + 1/4) 3) ∧
    ((handleZoomOut s).imageScale = max (s.imageScale - 1/4) (1/4)) ∧
    (s.imageScale = 3 → (handleZoomIn s).imageScale = 3) ∧
    (s.imageScale = 1/4 → (handleZoomOut s).imageScale = 1/4) := by
  have hZO : (handleZoomOut s).imageScale = max (s.imageScale - 1/4) (1/4) := by
    simp only [handleZoomOut]
    split <;> rfl
  refine ⟨runViewer_inv scaleInBounds scaleInBounds_step evs _ (initViewerState_scale b),
    rfl, hZO, ?_, ?_⟩
  · intro h3
    show min (s.imageScale + 1/4) 3 = 3
    rw [h3]
    norm_num
  · intro hq
    rw [hZO, hq]
    norm_num

/-- Witness for C7: `zoomIn` applied at scale 3 yields scale 3, and `zoomOut`
applied at scale 0.25 yields scale 0.25, on concrete states. -/
theorem viewer_scale_bounds_witness :
    (handleZoomIn ⟨true, 3, 0, 0, 0, false, 0, 0⟩).imageScale = 3 ∧
    (handleZoomOut ⟨true, 1/4, 0, 0, 0, false, 0, 0⟩).imageScale = 1/4 :=
  ⟨(viewer_scale_bounds [] true ⟨true, 3, 0, 0, 0, false, 0, 0⟩).2.2.2.1 rfl,
   (viewer_scale_bounds [] true ⟨true, 1/4, 0, 0, 0, false, 0, 0⟩).2.2.2.2 rfl⟩

/-- **C9.** Every reachable rotation is one of 0, 90, 180, 270; applying
`rotate` four times to any reachable state restores its rotation; from the
initial state, four `rotate`s bring the rotation back to 0. -/
theorem viewer_rotate_period (evs : List ViewerEvent) (b : Bool) :
    rotationQuarter (runViewer evs (initViewerState b)) ∧
    (viewerStep .rotate (viewerStep .rotate (viewerStep .rotate (viewerStep .rotate
      (runViewer evs (initViewerState b)))))).imageRotation
      = (runViewer evs (initViewerState b)).imageRotation ∧
    (viewerStep .rotate (viewerStep .rotate (viewerStep .rotate (viewerStep .rotate
      (initViewerState b))))).imageRotation = 0 := by
  have hreach : rotationQuarter (runViewer evs (initViewerState b)) :=
    runViewer_inv rotationQuarter rotationQuarter_step evs _ (Or.inl rfl)
  exact ⟨hreach, rotate_four _ hreach, (rotate_four (initViewerState b) (Or.inl rfl)).trans rfl⟩

/-! ### Rendered image transform -/

/-- The three parts of the CSS transform applied to the image:
`scale(imageScale) rotate(imageRotation deg)
translate(panX / imageScale px, panY / imageScale px)`. -/
structure RenderedTransform where
  scale : ℚ
  rotateDeg : ℤ
  translateX : ℚ
  translateY : ℚ
deriving DecidableEq, Repr

/-- The transform the viewer renders for a state, from the img style
template. -/
def renderTransform (s : ViewerState) : RenderedTransform :=
  ⟨s.imageScale, s.imageRotation, s.panX / s.imageScale, s.panY / s.imageScale⟩

/-- **C8.** For every reachable viewer state, the rendered transform uses the
state's scale and rotation, and its translate is the pan offset divided by
the scale — equivalently, translate times scale recovers the pan — the
division being well-defined because the reachable scale is at least 0.25,
hence positive. -/
theorem viewer_transform_unscaled (evs : List ViewerEvent) (b : Bool) :
    0 < (runViewer evs (initViewerState b)).imageScale ∧
    (renderTransform (runViewer evs (initViewerState b))).translateX *
        (runViewer evs (initViewerState b)).imageScale
      = (runViewer evs (initViewerState b)).panX ∧
    (renderTransform (runViewer evs (initViewerState b))).translateY *
        (runViewer evs (initViewerState b)).imageScale
      = (runViewer evs (initViewerState b)).panY ∧
    (renderTransform (runViewer evs (initViewerState b))).scale
      = (runViewer evs (initViewerState b)).imageScale ∧
    (renderTransform (runViewer evs (initViewerState b))).rotateDeg
      = (runViewer evs (initViewerState b)).imageRotation := by
  have hs := runViewer_inv scaleInBounds scaleInBounds_step evs
    (initViewerState b) (initViewerState_scale b)
  have hpos : 0 < (runViewer evs (initViewerState b)).imageScale :=
    lt_of_lt_of_le (by norm_num) hs.1
  refine ⟨hpos, ?_, ?_, rfl, rfl⟩
  · exact div_mul_cancel₀ _ (ne_of_gt hpos)
  · exact div_mul_cancel₀ _ (ne_of_gt hpos)

/-! ### Submission pipeline (`onSubmit`) and the collaborators -/

/-- Return shape of the storage-upload collaborator
`uploadFileToSupabase`: a url and an optional error message. -/
structure UploadOutcome where
  url : String
  error : Option String
deriving DecidableEq, Repr

/-- Return shape of the record-insert collaborator `insertProofRecord`. -/
structure InsertOutcome where
  success : Bool
  error : Option String
  id : Option Nat
deriving DecidableEq, Repr

/-- The `ProofSubmission` interface: the five fields the client supplies to
the record-insert collaborator. -/
structure ProofSubmission where
  proofLink : Option String
  fileName : Option String
  fileUrl : Option String
  fileSize : Option Nat
  fileType : Option String
deriving DecidableEq, Repr

/-- The `SubmissionResult` built on success. -/
structure SubmissionResult where
  id : Option Nat
  proofLink : Option String
  fileName : Option String
  fileUrl : Option String
  fileSize : Option Nat
  fileType : Option String
  submittedAt : String
  status : String
deriving DecidableEq, Repr

/-- The two collaborator calls the pipeline can make, in call order. -/
inductive SubmitStep where
  | uploadCalled
  | insertCalled
deriving DecidableEq, Repr

/-- Outcome of a submission: a blocking alert carrying an error message, or
a success with its `SubmissionResult`. -/
inductive SubmitOutcome where
  | alerted (msg : String)
  | succeeded (r : SubmissionResult)
deriving DecidableEq, Repr

/-- JavaScript template-literal rendering of an optional string
(an absent value prints as the text undefined). -/
def optStr : Option String → String
  | some s => s
  | none => "undefined"

/-- The `proofData` object `onSubmit` builds for the insert collaborator:
exactly the five `ProofSubmission` fields, taken from the form data and the
upload's url. -/
def clientProofData (data : ProofInput) (fileUrl : Option String) : ProofSubmission :=
  ⟨data.proofLink, data.file.map FileData.name, fileUrl,
   data.file.map FileData.sizeBytes, data.file.map FileData.mimeType⟩

/-- Tail of `onSubmit` from the comment `Prepare proof data for database`
on: builds `proofData`, calls the insert collaborator, alerts on failure and
otherwise builds the `SubmissionResult` with the insert-assigned id and
status pending. -/
def onSubmitInsert (data : ProofInput) (fileUrl : Option String)
    (insertRec : ProofSubmission → InsertOutcome) (now : String)
    (steps : List SubmitStep) : SubmitOutcome × List SubmitStep :=
  let dbResult := insertRec (clientProofData data fileUrl)
  if dbResult.success then
    (.succeeded ⟨dbResult.id, data.proofLink, data.file.map FileData.name, fileUrl,
      data.file.map FileData.sizeBytes, data.file.map FileData.mimeType, now, "pending"⟩,
     steps ++ [.insertCalled])
  else
    (.alerted ("Database error: " ++ optStr dbResult.error), steps ++ [.insertCalled])

/-- `onSubmit`: if a file is present, calls the upload collaborator first;
a truthy upload error aborts with an alert before any insert; otherwise the
insert runs on the form data plus the uploaded url. The second component
records which collaborators were called, in order. -/
def onSubmit (data : ProofInput) (upload : FileData → UploadOutcome)
    (insertRec : ProofSubmission → InsertOutcome) (now : String) :
    SubmitOutcome × List SubmitStep :=
  match data.file with
  | some f =>
    let u := upload f
    if strTruthy u.error then
      (.alerted ("File upload failed: " ++ optStr u.error), [.uploadCalled])
    else
      onSubmitInsert data (some u.url) insertRec now [.uploadCalled]
  | none => onSubmitInsert data none insertRec now []

/-- The url argument the insert step receives when the pipeline reaches it:
`some none` without a file, `some (some url)` after a successful upload, and
`none` (insert never reached) after a failed upload. -/
def pipelineFileUrl (data : ProofInput) (upload : FileData → UploadOutcome) :
    Option (Option String) :=
  match data.file with
  | none => some none
  | some f => if strTruthy (upload f).error then none else some (some (upload f).url)

lemma onSubmitInsert_fst_succeeded (data : ProofInput) (fileUrl : Option String)
    (insertRec : ProofSubmission → InsertOutcome) (now : String)
    (steps : List SubmitStep) (r : SubmissionResult)
    (h : (onSubmitInsert data fileUrl insertRec now steps).1 = .succeeded r) :
    (insertRec (clientProofData data fileUrl)).success = true ∧
    r.status = "pending" ∧ r.id = (insertRec (clientProofData data fileUrl)).id := by
  simp only [onSubmitInsert] at h
  split at h
  · rename_i hsucc
    have hr : r = ⟨(insertRec (clientProofData data fileUrl)).id, data.proofLink,
        data.file.map FileData.name, fileUrl, data.file.map FileData.sizeBytes,
        data.file.map FileData.mimeType, now, "pending"⟩ :=
      ((SubmitOutcome.succeeded.injEq _ _).mp h).symm
    refine ⟨hsucc, ?_, ?_⟩
    · rw [hr]
    · rw [hr]
  · simp at h

/-- **C1.** The submission pipeline: with a file present, the upload runs
first and a (truthy) upload error aborts before the insert with the error
surfaced; when the insert step runs and fails, the pipeline aborts with the
insert's message surfaced; a `SubmissionResult` — with status pending and
the insert-assigned id — is produced exactly when every executed step
succeeded, and never on either failure path. -/
theorem onSubmit_pipeline (data : ProofInput) (upload : FileData → UploadOutcome)
    (insertRec : ProofSubmission → InsertOutcome) (now : String) :
    (∀ f e, data.file = some f → (upload f).error = some e → e ≠ "" →
      onSubmit data upload insertRec now
        = (.alerted ("File upload failed: " ++ e), [.uploadCalled])) ∧
    (∀ f, data.file = some f →
      (onSubmit data upload insertRec now).2.head? = some .uploadCalled) ∧
    (data.file = none →
      (onSubmit data upload insertRec now).2 = [.insertCalled]) ∧
    (∀ url, pipelineFileUrl data upload = some url →
      (insertRec (clientProofData data url)).success = false →
      (onSubmit data upload insertRec now).1
        = .alerted ("Database error: " ++ optStr (insertRec (clientProofData data url)).error)) ∧
    (∀ url, pipelineFileUrl data upload = some url →
      (insertRec (clientProofData data url)).success = true →
      (onSubmit data upload insertRec now).1
        = .succeeded ⟨(insertRec (clientProofData data url)).id, data.proofLink,
            data.file.map FileData.name, url, data.file.map FileData.sizeBytes,
            data.file.map FileData.mimeType, now, "pending"⟩) ∧
    (∀ r, (onSubmit data upload insertRec now).1 = .succeeded r →
      ∃ url, pipelineFileUrl data upload = some url ∧
        (insertRec (clientProofData data url)).success = true ∧
        r.status = "pending" ∧ r.id = (insertRec (clientProofData data url)).id) := by
  rcases hf : data.file with _ | f
  · refine ⟨?_, ?_, ?_, ?_, ?_, ?_⟩
    · intro f e hsome
      exact absurd hsome (by simp)
    · intro f hsome
      exact absurd hsome (by simp)
    · intro _
      simp only [onSubmit, hf, onSubmitInsert]
      split <;> rfl
    · intro url hurl hfail
      have hu : url = none := by
        simp only [pipelineFileUrl, hf] at hurl
        simpa using hurl.symm
      subst hu
      simp only [onSubmit, hf, onSubmitInsert]
      rw [if_neg (by simp [hfail])]
    · intro url hurl hsucc
      have hu : url = none := by
        simp only [pipelineFileUrl, hf] at hurl
        simpa using hurl.symm
      subst hu
      simp only [onSubmit, hf, onSubmitInsert]
      rw [if_pos hsucc]
    · intro r hr
      simp only [onSubmit, hf] at hr
      refine ⟨none, by simp [pipelineFileUrl, hf], ?_⟩
      have := onSubmitInsert_fst_succeeded data none insertRec now [] r hr
      exact ⟨this.1, this.2.1, this.2.2⟩
  · by_cases herr : strTruthy (upload f).error = true
    · refine ⟨?_, ?_, ?_, ?_, ?_, ?_⟩
      · intro g e hsome he _
        have hgf : g = f := by simpa using hsome.symm
        subst hgf
        simp only [onSubmit, hf]
        rw [if_pos herr, he]
        rfl
      · intro g hsome
        simp only [onSubmit, hf]
        rw [if_pos herr]
        rfl
      · intro hnone
        exact absurd hnone (by simp)
      · intro url hurl
        simp only [pipelineFileUrl, hf, if_pos herr] at hurl
        exact absurd hurl (by simp)
      · intro url hurl
        simp only [pipelineFileUrl, hf, if_pos herr] at hurl
        exact absurd hurl (by simp)
      · intro r hr
        simp only [onSubmit, hf, if_pos herr] at hr
        exact absurd hr (by simp)
    · refine ⟨?_, ?_, ?_, ?_, ?_, ?_⟩
      · intro g e hsome he hne
        have hgf : g = f := by simpa using hsome.symm
        subst hgf
        exact absurd (by simp [strTruthy, he, hne]) herr
      · intro g hsome
        simp only [onSubmit, hf]
        rw [if_neg herr]
        simp only [onSubmitInsert]
        split <;> rfl
      · intro hnone
        exact absurd hnone (by simp)
      · intro url hurl hfail
        have hu : url = some (upload f).url := by
          simp only [pipelineFileUrl, hf, if_neg herr] at hurl
          simpa using hurl.symm
        subst hu
        simp only [onSubmit, hf]
        rw [if_neg herr]
        simp only [onSubmitInsert]
        rw [if_neg (by simp [hfail])]
      · intro url hurl hsucc
        have hu : url = some (upload f).url := by
          simp only [pipelineFileUrl, hf, if_neg herr] at hurl
          simpa using hurl.symm
        subst hu
        simp only [onSubmit, hf]
        rw [if_neg herr]
        simp only [onSubmitInsert]
        rw [if_pos hsucc, hf]
      · intro r hr
        simp only [onSubmit, hf] at hr
        rw [if_neg herr] at hr
        refine ⟨some (upload f).url, by simp [pipelineFileUrl, hf, if_neg herr], ?_⟩
        have := onSubmitInsert_fst_succeeded data (some (upload f).url) insertRec now
          [.uploadCalled] r hr
        exact ⟨this.1, this.2.1, this.2.2⟩

/-- Witness for C1: with a concrete file, an upload collaborator failing
with message boom, and an insert collaborator that would succeed with id 7,
the pipeline aborts at the upload with the message surfaced and the insert
is never called; with a succeeding upload, the result carries id 7 and
status pending. -/
theorem onSubmit_pipeline_witness :
    (onSubmit ⟨none, some ⟨"a.png", "image/png", 10⟩⟩
        (fun _ => ⟨"", some ("boom")⟩) (fun _ => ⟨true, none, some 7⟩) ("t0")
      = (.alerted ("File upload failed: boom"), [.uploadCalled])) ∧
    ((onSubmit ⟨none, some ⟨"a.png", "image/png", 10⟩⟩
        (fun _ => ⟨"https://cdn/x.png", none⟩) (fun _ => ⟨true, none, some 7⟩) ("t0")).1
      = .succeeded ⟨some 7, none, some ("a.png"), some ("https://cdn/x.png"),
          some 10, some ("image/png"), "t0", "pending"⟩) := by
  constructor
  · exact (onSubmit_pipeline ⟨none, some ⟨"a.png", "image/png", 10⟩⟩
      (fun _ => ⟨"", some ("boom")⟩) (fun _ => ⟨true, none, some 7⟩) ("t0")).1
      ⟨"a.png", "image/png", 10⟩ "boom" rfl rfl (by decide)
  · exact (onSubmit_pipeline ⟨none, some ⟨"a.png", "image/png", 10⟩⟩
      (fun _ => ⟨"https://cdn/x.png", none⟩) (fun _ => ⟨true, none, some 7⟩) ("t0")).2.2.2.2.1
      (some ("https://cdn/x.png")) rfl rfl

/-! ### Record-insert collaborator (`insertProofRecord`) -/

/-- The row `insertProofRecord` sends to the database: the five submission
fields plus `created_at` and `status`. -/
structure InsertedRow where
  proof_link : Option String
  file_name : Option String
  file_url : Option String
  file_size : Option Nat
  file_type : Option String
  created_at : String
  status : String
deriving DecidableEq, Repr

/-- The row construction inside `insertProofRecord`: the submission's five
fields are copied, and the server action itself supplies
`created_at = new Date().toISOString()` (modelled by the server-side clock
reading `now`) and `status = "pending"`. -/
def buildInsertRow (proofData : ProofSubmission) (now : String) : InsertedRow :=
  ⟨proofData.proofLink, proofData.fileName, proofData.fileUrl,
   proofData.fileSize, proofData.fileType, now, "pending"⟩

/-- **C10.** For every record the insert collaborator creates, `created_at`
and `status` are assigned server-side: the row's `status` is the constant
pending and its `created_at` is the server clock reading, both independent
of the client-supplied submission; the client-side call supplies exactly the
five `ProofSubmission` fields, which the row copies unchanged. -/
theorem insertRow_server_fields (p q : ProofSubmission) (now : String)
    (data : ProofInput) (url : Option String) :
    (buildInsertRow p now).status = "pending" ∧
    (buildInsertRow p now).created_at = now ∧
    (buildInsertRow p now).status = (buildInsertRow q now).status ∧
    (buildInsertRow p now).created_at = (buildInsertRow q now).created_at ∧
    (buildInsertRow p now).proof_link = p.proofLink ∧
    (buildInsertRow p now).file_name = p.fileName ∧
    (buildInsertRow p now).file_url = p.fileUrl ∧
    (buildInsertRow p now).file_size = p.fileSize ∧
    (buildInsertRow p now).file_type = p.fileType ∧
    clientProofData data url
      = ⟨data.proofLink, data.file.map FileData.name, url,
         data.file.map FileData.sizeBytes, data.file.map FileData.mimeType⟩ :=
  ⟨rfl, rfl, rfl, rfl, rfl, rfl, rfl, rfl, rfl, rfl⟩

end ProofViewer
